import Mathlib

/-!
Verification development for the email2signal gateway (`app.py`).

Python strings are modelled as `List Char`; the handler's envelope recipient
list is a `List (List Char)`.  Every definition below is translated from the
source file `app.py`; the only exceptions are explicitly marked as modelled
from the specification (the external `html2text` library, which is not part
of this repository).
-/

namespace Email2Signal

/-- Models Python `s.startswith("+")` (used in `handle_DATA`, line 61). -/
def startsWithPlus (s : List Char) : Bool :=
  match s with
  | [] => false
  | c :: _ => c == '+'

/-- Models the Python substring test `pat in s` on strings. -/
def containsSub (pat : List Char) : List Char → Bool
  | [] => pat.isEmpty
  | c :: t => pat.isPrefixOf (c :: t) || containsSub pat t

/-- Models Python `s.split(pat, 1)[-1]` in the case where `pat` occurs in
`s` (the source only evaluates it under the guard `pat in body`,
line 104-105): everything after the first occurrence of `pat`. -/
def split1Tail (pat : List Char) : List Char → List Char
  | [] => []
  | c :: t =>
    if pat.isPrefixOf (c :: t) then (c :: t).drop pat.length
    else split1Tail pat t

/-- Models Python `s.replace(pat, "")` for a non-empty pattern `pat`:
delete every (left-to-right, non-overlapping) occurrence of `pat`. -/
def replaceRemove : List Char → List Char → List Char
  | _, [] => []
  | [], s => s
  | p :: pt, c :: t =>
    if (p :: pt).isPrefixOf (c :: t) then
      replaceRemove (p :: pt) ((c :: t).drop (p :: pt).length)
    else
      c :: replaceRemove (p :: pt) t
termination_by _pat s => s.length
decreasing_by
  · simp only [List.length_drop, List.length_cons]; omega
  · simp only [List.length_cons]; omega

/-! ## The receiver regex `(\+?\d+)@signal.localdomain` (line 29)

`re.search` scans for the leftmost position where the pattern matches.
At a fixed position the pattern is: an optional `+`, then a maximal
non-empty run of digits (greedy `\d+`; no shorter run can succeed because
a digit can never equal the following literal `@`), then the literal
`@signal`, then one arbitrary non-newline character (the unescaped `.`),
then the literal `localdomain`.  `match.group(1)` is the optional `+`
together with the digit run.  `\d` is modelled as the ASCII digits `0`-`9`
(`Char.isDigit`); Python's `\d` additionally accepts non-ASCII Unicode
decimal digits, which no claim exercises. -/

/-- The suffix `@signal.localdomain` of the receiver regex: literal
`@signal`, any single character other than a newline (the unescaped `.`),
then the literal `localdomain`. -/
def checkSuffix (cs : List Char) : Bool :=
  match cs with
  | '@' :: 's' :: 'i' :: 'g' :: 'n' :: 'a' :: 'l' :: c :: rest =>
    c != '\n' && "localdomain".data.isPrefixOf rest
  | _ => false

/-- Match `\d+@signal.localdomain` at the start of `cs`, returning the digit
run (`\d+` is effectively possessive here: the character after any shorter
digit run would be a digit, never the required `@`). -/
def matchCore (cs : List Char) : Option (List Char) :=
  let ds := cs.takeWhile Char.isDigit
  if ds.isEmpty then none
  else if checkSuffix (cs.drop ds.length) then some ds else none

/-- Match the full pattern `(\+?\d+)@signal.localdomain` at the start of
`cs`, returning capture group 1.  When `cs` starts with `+` and the rest
fails to match, the `\+?` alternative without the `+` also fails (the first
character `+` is not a digit), so the whole position fails. -/
def matchPrefixAt (cs : List Char) : Option (List Char) :=
  match cs with
  | [] => none
  | c :: t =>
    if c == '+' then (matchCore t).map (fun ds => '+' :: ds)
    else matchCore (c :: t)

/-- Models `re.search(self.receiver_regex, address)` (line 40), returning
`match.group(1)` of the leftmost match, or `none` when the regex does not
match anywhere (the pattern cannot match the empty suffix). -/
def receiverSearch : List Char → Option (List Char)
  | [] => none
  | c :: t =>
    match matchPrefixAt (c :: t) with
    | some g => some g
    | none => receiverSearch t

/-- Models `handle_RCPT` (lines 36-54): returns the SMTP response string and
the new recipient list.  On a regex match, `match.group(1)` always returns
the string captured by group 1 (the group always participates in a match of
this pattern), so the `except TypeError` branch of the source can never
fire and is not reachable in the model. -/
def handle_RCPT (rcpt_tos : List (List Char)) (address : List Char) :
    List Char × List (List Char) :=
  match receiverSearch address with
  | some grp =>
    let number := if startsWithPlus address then grp else '+' :: grp
    ("250 OK".data, rcpt_tos ++ [number])
  | none => ("250 OK".data, rcpt_tos ++ [address])

example : receiverSearch "+123@signal.localdomain".data = some "+123".data := by decide
example : receiverSearch "123@signal.localdomain".data = some "123".data := by decide
example : receiverSearch "bob@example.com".data = none := by decide
example : receiverSearch "+bob@example.com".data = none := by decide
example : receiverSearch "x+7@signal.localdomain".data = some "+7".data := by decide
example : receiverSearch "7@signalXlocaldomain".data = some "7".data := by decide

/-! ## The DATA transaction (`handle_DATA`, lines 56-87) -/

/-- Models the bucketing loop of `handle_DATA` (lines 57-64): traverse
`envelope.rcpt_tos` in order, appending each address that starts with `+`
to `signal_numbers` (first component) and every other address to
`mail_addresses` (second component). -/
def partitionRcpt (rcpt_tos : List (List Char)) :
    List (List Char) × List (List Char) :=
  rcpt_tos.foldl
    (fun acc addr =>
      if startsWithPlus addr then (acc.1 ++ [addr], acc.2)
      else (acc.1, acc.2 ++ [addr]))
    ([], [])

/-- Models the outcome of `requests.request("POST", ...)` (line 127) as seen
by `send_signal`: `Except.ok code` is a completed HTTP exchange with status
code `code`; `Except.error ()` is a transport-level exception raised by the
HTTP client (the source wraps the call in no `try`/`except`, so such an
exception propagates out of `send_signal` and out of `handle_DATA`). -/
def send_signal (restOutcome : Except Unit Nat) : Except Unit Bool :=
  match restOutcome with
  | Except.error e => Except.error e
  | Except.ok code => Except.ok (code == 201)

/-- Observable result of one `handle_DATA` call: the SMTP response string
returned by the coroutine (`none` when an uncaught exception propagated
instead of a return), and whether `send_signal` / `send_mail` were invoked
during the call. -/
structure DataOutcome where
  response : Option (List Char)
  signalInvoked : Bool
  mailInvoked : Bool
deriving DecidableEq

/-- Models `handle_DATA` (lines 56-87).  `restOutcome` is the outcome of the
REST call inside `send_signal` (only consulted when the signal bucket is
non-empty); `mailResponse` is the status string returned by the external
`send_mail` collaborator (only consulted when the mail bucket is
non-empty). -/
def handle_DATA (rcpt_tos : List (List Char)) (restOutcome : Except Unit Nat)
    (mailResponse : List Char) : DataOutcome :=
  let buckets := partitionRcpt rcpt_tos
  let signal_numbers := buckets.1
  let mail_addresses := buckets.2
  if signal_numbers.length > 0 then
    match send_signal restOutcome with
    | Except.error _ => ⟨none, true, false⟩
    | Except.ok success =>
      if !success then
        ⟨some "554 Sending signal message has failed".data, true, false⟩
      else if mail_addresses.length = 0 then
        ⟨some "250 Message accepted for delivery".data, true, false⟩
      else ⟨some mailResponse, true, true⟩
  else
    if mail_addresses.length = 0 then
      ⟨some "250 Message accepted for delivery".data, false, false⟩
    else ⟨some mailResponse, false, true⟩

example :
    handle_DATA ["+15551234567".data, "bob@example.com".data] (Except.ok 201)
      "250 relay ok".data = ⟨some "250 relay ok".data, true, true⟩ := by decide
example :
    handle_DATA ["+15551234567".data, "bob@example.com".data] (Except.ok 500)
      "250 relay ok".data =
      ⟨some "554 Sending signal message has failed".data, true, false⟩ := by decide
example :
    handle_DATA ["+15551234567".data] (Except.ok 201) "250 relay ok".data =
      ⟨some "250 Message accepted for delivery".data, true, false⟩ := by decide
example :
    handle_DATA ["+15551234567".data] (Except.error ()) "250 relay ok".data =
      ⟨none, true, false⟩ := by decide

/-! ## Payload construction in `send_signal` (lines 89-127) -/

/-- Tags whose occurrence produces a line break in the modelled HTML-to-text
conversion (spec: block-level tags become line breaks). -/
def isBlockTag (tag : List Char) : Bool :=
  let t := match tag with
    | '/' :: r => r
    | _ => tag
  ["p", "div", "br", "h1", "h2", "h3", "h4", "li", "ul", "ol", "tr",
    "td", "table", "blockquote"].any (fun b => b.data.isPrefixOf t)

/-- Modelled from the spec: the external `html2text` library invoked at
line 106 is not part of this repository; per spec section 4.2 it converts
HTML markup to readable plain text, block-level tags become line breaks and
inline formatting is flattened.  The model drops each `<`...`>` tag,
emitting a line break for block-level tags. -/
def html2text_model : List Char → List Char
  | [] => []
  | c :: t =>
    if c = '<' then
      (if isBlockTag (t.takeWhile (fun d => d != '>')) then ['\n'] else []) ++
        html2text_model ((t.drop (t.takeWhile (fun d => d != '>')).length).drop 1)
    else c :: html2text_model t
termination_by s => s.length
decreasing_by
  · simp only [List.length_drop, List.length_cons]; omega
  · simp only [List.length_cons]; omega

/-- The literal `"<!DOCTYPE html "` tested and re-prepended at
lines 104-105. -/
def doctypeMarker : List Char := "<!DOCTYPE html ".data

/-- Models lines 104-108 of `send_signal`: the part of `msg` coming from the
body.  If the body contains the doctype marker, everything before its first
occurrence is discarded, the marker is re-prepended and the result is run
through the HTML-to-text conversion; otherwise the body is used as is. -/
def extract_msg_body (body : List Char) : List Char :=
  if containsSub doctypeMarker body then
    html2text_model (doctypeMarker ++ split1Tail doctypeMarker body)
  else body

/-- The character class `[a-zA-Z]` of the inline-image regex (line 116). -/
def isAlphaAscii (c : Char) : Bool :=
  ('a' ≤ c && c ≤ 'z') || ('A' ≤ c && c ≤ 'Z')

/-- The character class `[a-zA-Z0-9+/=\n\r]` of the capture group of the
inline-image regex (line 116). -/
def isImgPayloadChar (c : Char) : Bool :=
  isAlphaAscii c || c.isDigit || c == '+' || c == '/' || c == '=' ||
    c == '\n' || c == '\r'

/-- Match the inline-image regex
`data:image\/[a-zA-Z]+;base64,([a-zA-Z0-9+/=\n\r]+)` at the start of `cs`.
On success, return capture group 1 and the remainder of `cs` after the
match.  Both `+`-repetitions are effectively possessive: the character
after any shorter subtype run would be a letter (never `;`), and the
capture group is the final subexpression, so the greedy maximal runs are
the only candidates. -/
def matchImageAt (cs : List Char) : Option (List Char × List Char) :=
  if "data:image/".data.isPrefixOf cs then
    let cs1 := cs.drop "data:image/".data.length
    let sub := cs1.takeWhile isAlphaAscii
    if sub.isEmpty then none
    else
      let cs2 := cs1.drop sub.length
      if ";base64,".data.isPrefixOf cs2 then
        let cs3 := cs2.drop ";base64,".data.length
        let payload := cs3.takeWhile isImgPayloadChar
        if payload.isEmpty then none
        else some (payload, cs3.drop payload.length)
      else none
  else none

set_option linter.unusedVariables false in
/-- Models `re.findall(image_regex, body)` (line 117): scan left to right;
at each position attempt a match; on success record capture group 1 and
resume scanning after the matched text (matches do not overlap). -/
def findImages (cs : List Char) : List (List Char) :=
  match cs with
  | [] => []
  | c :: t =>
    match h : matchImageAt (c :: t) with
    | some (g, rest) => g :: findImages rest
    | none => findImages t
termination_by cs.length
decreasing_by
  · rename_i t
    simp only [matchImageAt] at h
    split at h
    case isFalse => exact absurd h (by simp)
    case isTrue hpre =>
      split at h
      case isTrue => exact absurd h (by simp)
      case isFalse hsub =>
        split at h
        case isFalse => exact absurd h (by simp)
        case isTrue hb64 =>
          split at h
          case isTrue => exact absurd h (by simp)
          case isFalse hpay =>
            simp only [Option.some.injEq, Prod.mk.injEq] at h
            obtain ⟨-, hr⟩ := h
            subst hr
            have hlen : "data:image/".data.length ≤ (c :: t).length := by
              simp only [ List.isPrefixOf_iff_prefix] at hpre
              exact hpre.length_le
            have h1 := ( List.takeWhile_prefix (l :=
              ((c :: t).drop "data:image/".data.length).drop
                (((c :: t).drop "data:image/".data.length).takeWhile
                  isAlphaAscii).length |>.drop ";base64,".data.length)
              (p := isImgPayloadChar)).length_le
            have h2 : ¬ (((c :: t).drop "data:image/".data.length).drop
                (((c :: t).drop "data:image/".data.length).takeWhile
                  isAlphaAscii).length |>.drop ";base64,".data.length).takeWhile
                    isImgPayloadChar = [] := by
              intro hnil
              rw [hnil] at hpay
              exact hpay rfl
            have h3 : 0 < ((((c :: t).drop "data:image/".data.length).drop
                (((c :: t).drop "data:image/".data.length).takeWhile
                  isAlphaAscii).length |>.drop ";base64,".data.length).takeWhile
                    isImgPayloadChar).length := List.length_pos.mpr h2
            simp only [List.length_drop] at *
            omega
  · simp

/-- Models the clean-up at line 121: `img.replace("\n", "").replace("\r", "")`. -/
def cleanImg (img : List Char) : List Char :=
  replaceRemove ['\r'] (replaceRemove ['\n'] img)

/-- The JSON payload assembled by `send_signal` (lines 96-122); the optional
`base64_attachments` key is `none` when it is never inserted. -/
structure SignalPayload where
  message : List Char
  number : List Char
  recipients : List (List Char)
  base64_attachments : Option (List (List Char))
deriving DecidableEq

/-- Models the payload construction of `send_signal` (lines 96-122).
`subject` is the decoded subject string (line 99, produced by the
`header_decode` helper over the external header parser) and `body` the
string returned by `get_body(('html', 'plain')).get_content()` (lines
92-93, produced by the external MIME parser); both are inputs of the model
because they come from external collaborators. -/
def send_signal_payload (sender_number subject body : List Char)
    (signal_receivers : List (List Char)) : SignalPayload :=
  let msg := subject ++ ('\r' :: '\n' :: []) ++ extract_msg_body body
  let imgMatches := findImages body
  { message := msg
    number := replaceRemove ['\\'] sender_number
    recipients := signal_receivers
    base64_attachments :=
      if imgMatches.isEmpty then none else some (imgMatches.map cleanImg) }

/-- Value of a character of the standard base64 alphabet. -/
def b64Val (c : Char) : Option Nat :=
  if 'A' ≤ c && c ≤ 'Z' then some (c.toNat - 'A'.toNat)
  else if 'a' ≤ c && c ≤ 'z' then some (c.toNat - 'a'.toNat + 26)
  else if '0' ≤ c && c ≤ '9' then some (c.toNat - '0'.toNat + 52)
  else if c == '+' then some 62
  else if c == '/' then some 63
  else none

/-- Standard base64 decoding of a padded base64 string into a byte list
(each byte a `Nat` below 256).  The source never decodes the attachment
strings itself (it forwards them base64-encoded in `base64_attachments`);
this decoder gives the byte buffers those strings denote. -/
def base64Decode : List Char → Option (List Nat)
  | [] => some []
  | a :: b :: '=' :: '=' :: [] =>
    (b64Val a).bind fun va => (b64Val b).map fun vb =>
      [va * 4 + vb / 16]
  | a :: b :: c :: '=' :: [] =>
    (b64Val a).bind fun va => (b64Val b).bind fun vb =>
      (b64Val c).map fun vc =>
        [va * 4 + vb / 16, vb % 16 * 16 + vc / 4]
  | a :: b :: c :: d :: rest =>
    (b64Val a).bind fun va => (b64Val b).bind fun vb =>
      (b64Val c).bind fun vc => (b64Val d).bind fun vd =>
        (base64Decode rest).map fun bytes =>
          (va * 4 + vb / 16) :: (vb % 16 * 16 + vc / 4) ::
            (vc % 4 * 64 + vd) :: bytes
  | _ => none

/-- Shape of capture group 1 of the receiver regex: a non-empty digit run,
possibly preceded by a single `+`. -/
def goodGroup (g : List Char) : Prop :=
  ∃ ds : List Char, ds ≠ [] ∧ (∀ c ∈ ds, c.isDigit = true) ∧
    (g = ds ∨ g = '+' :: ds)

/-- `pat` has no non-trivial self-overlap: no proper non-empty suffix of
`pat` is one of its prefixes.  Such a pattern cannot occur straddling the
boundary between a clean prefix and an occurrence of `pat` itself. -/
def noSelfOverlapB (pat : List Char) : Bool :=
  (List.range pat.length).all fun k =>
    k == 0 || !((pat.drop k).isPrefixOf pat)

/-- Scenario fixture: an HTML body embedding two `data:image` data URIs
(subtypes `sub1`, `sub2`; base64 payloads `p1`, `p2`) inside `img` tags. -/
def demoBody (sub1 p1 sub2 p2 : List Char) : List Char :=
  "<html><img src=\"".data ++
    ("data:image/".data ++ (sub1 ++ (";base64,".data ++ (p1 ++ '"' ::
      ("><img src=\"".data ++ ("data:image/".data ++ (sub2 ++
        (";base64,".data ++ (p2 ++ '"' :: "></html>".data)))))))))

set_option maxRecDepth 10000

example :
    findImages "<img src=\"data:image/png;base64,aGVs\nbG8=\">".data =
      ["aGVs\nbG8=".data] := by
  simp [findImages, matchImageAt, List.isPrefixOf, List.takeWhile,
    isAlphaAscii, isImgPayloadChar, Char.isDigit]
example : cleanImg "aGVs\nbG8=".data = "aGVsbG8=".data := by
  simp [cleanImg, replaceRemove, List.isPrefixOf]
example : replaceRemove ['\\'] "+49\\123".data = "+49123".data := by
  simp [replaceRemove, List.isPrefixOf]
example :
    extract_msg_body "noise<!DOCTYPE html x><p>hi</p>".data = "\nhi\n".data := by
  simp [extract_msg_body, containsSub, doctypeMarker, split1Tail,
    html2text_model, isBlockTag, List.isPrefixOf, List.takeWhile]

/-! ## Helper lemmas -/

theorem takeWhile_append_stop {p : Char → Bool} {ds : List Char}
    (q : Char) (rest : List Char) (h1 : ∀ c ∈ ds, p c = true)
    (h2 : p q = false) : (ds ++ q :: rest).takeWhile p = ds := by
  rw [List.takeWhile_append_of_pos h1, List.takeWhile_cons, h2]
  simp

theorem isDigit_ne_plus {c : Char} (h : c.isDigit = true) :
    (c == '+') = false := by
  by_cases hc : c = '+'
  · subst hc
    exact absurd h (by decide)
  · simp [hc]

theorem matchCore_digits (ds : List Char) (hne : ds ≠ [])
    (hd : ∀ c ∈ ds, c.isDigit = true) :
    matchCore (ds ++ "@signal.localdomain".data) = some ds := by
  have hdom : "@signal.localdomain".data = '@' :: "signal.localdomain".data := rfl
  have ht : (ds ++ "@signal.localdomain".data).takeWhile Char.isDigit = ds := by
    rw [hdom]
    exact takeWhile_append_stop '@' _ hd (by decide)
  simp only [matchCore, ht]
  rw [if_neg (by simp [hne]), List.drop_left, if_pos (by decide)]

theorem matchPrefixAt_cons (c : Char) (t : List Char) :
    matchPrefixAt (c :: t) =
      if c == '+' then (matchCore t).map (fun ds => '+' :: ds)
      else matchCore (c :: t) := rfl

theorem receiverSearch_cons (c : Char) (t : List Char) :
    receiverSearch (c :: t) =
      match matchPrefixAt (c :: t) with
      | some g => some g
      | none => receiverSearch t := rfl

theorem receiverSearch_digits (ds : List Char) (hne : ds ≠ [])
    (hd : ∀ c ∈ ds, c.isDigit = true) :
    receiverSearch (ds ++ "@signal.localdomain".data) = some ds := by
  cases ds with
  | nil => exact absurd rfl hne
  | cons d ds' =>
    have hdig : d.isDigit = true := hd d (by simp)
    rw [List.cons_append, receiverSearch_cons, matchPrefixAt_cons,
      if_neg (by simp [isDigit_ne_plus hdig]), ← List.cons_append,
      matchCore_digits (d :: ds') hne hd]

theorem receiverSearch_plus_digits (ds : List Char) (hne : ds ≠ [])
    (hd : ∀ c ∈ ds, c.isDigit = true) :
    receiverSearch ('+' :: (ds ++ "@signal.localdomain".data)) =
      some ('+' :: ds) := by
  rw [receiverSearch_cons, matchPrefixAt_cons, if_pos (by simp),
    matchCore_digits ds hne hd]
  rfl

theorem matchCore_good {cs ds : List Char} (h : matchCore cs = some ds) :
    ds ≠ [] ∧ ∀ c ∈ ds, c.isDigit = true := by
  simp only [matchCore] at h
  split at h
  · exact absurd h (by simp)
  · split at h
    · simp only [Option.some.injEq] at h
      subst h
      refine ⟨?_, fun c hc => List.mem_takeWhile_imp hc⟩
      rename_i hne _
      intro hnil
      rw [hnil] at hne
      exact hne rfl
    · exact absurd h (by simp)

theorem matchPrefixAt_good {cs g : List Char}
    (h : matchPrefixAt cs = some g) : goodGroup g := by
  cases cs with
  | nil => exact absurd h (by simp [matchPrefixAt])
  | cons c t =>
    simp only [matchPrefixAt] at h
    split at h
    · rw [Option.map_eq_some'] at h
      obtain ⟨ds, hds, rfl⟩ := h
      obtain ⟨hne, hd⟩ := matchCore_good hds
      exact ⟨ds, hne, hd, Or.inr rfl⟩
    · obtain ⟨hne, hd⟩ := matchCore_good h
      exact ⟨g, hne, hd, Or.inl rfl⟩

theorem receiverSearch_good {addr g : List Char}
    (h : receiverSearch addr = some g) : goodGroup g := by
  induction addr with
  | nil => exact absurd h (by simp [receiverSearch])
  | cons c t ih =>
    simp only [receiverSearch] at h
    split at h
    · rename_i g' hg'
      simp only [Option.some.injEq] at h
      subst h
      exact matchPrefixAt_good hg'
    · exact ih h

theorem partitionRcpt_eq (l : List (List Char)) :
    partitionRcpt l =
      (l.filter startsWithPlus, l.filter fun a => !(startsWithPlus a)) := by
  suffices h : ∀ acc : List (List Char) × List (List Char),
      l.foldl (fun acc addr =>
        if startsWithPlus addr then (acc.1 ++ [addr], acc.2)
        else (acc.1, acc.2 ++ [addr])) acc =
      (acc.1 ++ l.filter startsWithPlus,
        acc.2 ++ l.filter fun a => !(startsWithPlus a)) by
    simpa [partitionRcpt] using h ([], [])
  induction l with
  | nil => intro acc; simp
  | cons a t ih =>
    intro acc
    by_cases ha : startsWithPlus a
    · simp [List.filter_cons, ha, ih]
    · simp only [Bool.not_eq_true] at ha
      simp [List.filter_cons, ha, ih]

/-! ## Claims -/

/-- C2: for every address of the form `<digits>@signal.localdomain`, with or
without a single leading `+`, `handle_RCPT` responds `250 OK` and appends the
same canonical contact id: the digit group prefixed with `+` exactly once. -/
theorem rcpt_contact_id_canonical (ds : List Char) (rcpt : List (List Char))
    (hne : ds ≠ []) (hd : ∀ c ∈ ds, c.isDigit = true) :
    handle_RCPT rcpt ('+' :: ds ++ "@signal.localdomain".data) =
      ("250 OK".data, rcpt ++ [('+' :: ds)]) ∧
    handle_RCPT rcpt (ds ++ "@signal.localdomain".data) =
      ("250 OK".data, rcpt ++ [('+' :: ds)]) := by
  constructor
  · have hs := receiverSearch_plus_digits ds hne hd
    unfold handle_RCPT
    rw [List.cons_append, hs]
    rfl
  · cases ds with
    | nil => exact absurd rfl hne
    | cons d ds' =>
      have hdig : d.isDigit = true := hd d (by simp)
      have hs := receiverSearch_digits (d :: ds') hne hd
      unfold handle_RCPT
      rw [hs]
      have hsp : startsWithPlus ((d :: ds') ++ "@signal.localdomain".data) =
        (d == '+') := rfl
      rw [hsp, isDigit_ne_plus hdig]
      rfl

/-- C2 witness: classifying `+123@signal.localdomain` and
`123@signal.localdomain` both append the id `+123`. -/
theorem rcpt_contact_id_canonical_witness :
    handle_RCPT [] ('+' :: "123".data ++ "@signal.localdomain".data) =
      ("250 OK".data, [('+' :: "123".data)]) ∧
    handle_RCPT [] ("123".data ++ "@signal.localdomain".data) =
      ("250 OK".data, [('+' :: "123".data)]) :=
  rcpt_contact_id_canonical "123".data [] (by decide) (by decide)

/-- C3: every address on which the receiver regex finds no match is appended
to the recipient list completely unchanged, with response `250 OK`. -/
theorem rcpt_email_unchanged (addr : List Char) (rcpt : List (List Char))
    (h : receiverSearch addr = none) :
    handle_RCPT rcpt addr = ("250 OK".data, rcpt ++ [addr]) := by
  simp [handle_RCPT, h]

/-- C3 witness: `bob@example.com` does not match the receiver regex and is
appended unchanged. -/
theorem rcpt_email_unchanged_witness :
    handle_RCPT [] "bob@example.com".data =
      ("250 OK".data, ["bob@example.com".data]) :=
  rcpt_email_unchanged "bob@example.com".data [] (by decide)

/-- C9: `handle_RCPT` responds `250 OK` and appends exactly one entry for
every input address; whenever the receiver regex matches, capture group 1 is
a non-empty digit run optionally preceded by one `+`, so retrieving the
group cannot fail and the `500 Malformed receiver address` branch is
unreachable. -/
theorem rcpt_always_accepts (rcpt : List (List Char)) (addr : List Char) :
    (handle_RCPT rcpt addr).1 = "250 OK".data ∧
    (handle_RCPT rcpt addr).2.length = rcpt.length + 1 ∧
    (∀ g, receiverSearch addr = some g → goodGroup g) := by
  refine ⟨?_, ?_, fun g hg => receiverSearch_good hg⟩
  · unfold handle_RCPT
    split
    · simp
    · simp
  · unfold handle_RCPT
    split
    · simp
    · simp

/-- C9 witness: evaluated at `123@signal.localdomain`, which matches the
regex with capture group `123`. -/
theorem rcpt_always_accepts_witness :
    (handle_RCPT [] "123@signal.localdomain".data).1 = "250 OK".data ∧
    goodGroup "123".data :=
  ⟨(rcpt_always_accepts [] "123@signal.localdomain".data).1,
    (rcpt_always_accepts [] "123@signal.localdomain".data).2.2
      "123".data (by decide)⟩

/-- C10: `handle_DATA` buckets the accumulated recipients solely by a
leading `+` (each bucket an order-preserving filter, every recipient in
exactly one bucket); the address `+bob@example.com` never matches the
receiver regex, is appended unchanged by `handle_RCPT`, and lands in the
messaging bucket, never in the mail bucket. -/
theorem data_partition_by_plus (rcpt : List (List Char)) :
    (partitionRcpt rcpt).1 = rcpt.filter startsWithPlus ∧
    (partitionRcpt rcpt).2 = rcpt.filter (fun a => !(startsWithPlus a)) ∧
    (∀ a ∈ rcpt,
      (a ∈ (partitionRcpt rcpt).1 ∧ a ∉ (partitionRcpt rcpt).2) ∨
      (a ∉ (partitionRcpt rcpt).1 ∧ a ∈ (partitionRcpt rcpt).2)) ∧
    (handle_RCPT rcpt "+bob@example.com".data).2 =
      rcpt ++ ["+bob@example.com".data] ∧
    "+bob@example.com".data ∈
      (partitionRcpt (rcpt ++ ["+bob@example.com".data])).1 ∧
    "+bob@example.com".data ∉
      (partitionRcpt (rcpt ++ ["+bob@example.com".data])).2 := by
  have hp := partitionRcpt_eq rcpt
  have hp2 := partitionRcpt_eq (rcpt ++ ["+bob@example.com".data])
  refine ⟨by rw [hp], by rw [hp], ?_, ?_, ?_, ?_⟩
  · intro a ha
    by_cases hpa : startsWithPlus a
    · left
      rw [hp]
      refine ⟨List.mem_filter.mpr ⟨ha, hpa⟩, fun hmem => ?_⟩
      have h2 := (List.mem_filter.mp hmem).2
      simp [hpa] at h2
    · right
      rw [hp]
      refine ⟨fun hmem => ?_, ?_⟩
      · exact hpa (List.mem_filter.mp hmem).2
      · simp only [Bool.not_eq_true] at hpa
        exact List.mem_filter.mpr ⟨ha, by simp [hpa]⟩
  · have hnone : receiverSearch "+bob@example.com".data = none := by decide
    unfold handle_RCPT
    rw [hnone]
  · rw [hp2]
    exact List.mem_filter.mpr ⟨by simp, by decide⟩
  · rw [hp2]
    intro hmem
    have h2 := (List.mem_filter.mp hmem).2
    exact absurd h2 (by decide)

/-- C10 witness: in the envelope `["+15551234567", "bob@example.com"]` the
first address lies in the messaging bucket and not in the mail bucket. -/
theorem data_partition_by_plus_witness :
    ("+15551234567".data ∈
        (partitionRcpt ["+15551234567".data, "bob@example.com".data]).1 ∧
      "+15551234567".data ∉
        (partitionRcpt ["+15551234567".data, "bob@example.com".data]).2) ∨
    ("+15551234567".data ∉
        (partitionRcpt ["+15551234567".data, "bob@example.com".data]).1 ∧
      "+15551234567".data ∈
        (partitionRcpt ["+15551234567".data, "bob@example.com".data]).2) :=
  (data_partition_by_plus ["+15551234567".data, "bob@example.com".data]).2.2.1
    "+15551234567".data (by decide)

/-- C8: when every accumulated recipient is a messaging contact id, the mail
bucket is empty, so after a successful dispatch (HTTP 201) `handle_DATA`
returns `250 Message accepted for delivery` and `send_mail` is never
invoked. -/
theorem data_all_signal_success (rcpt : List (List Char))
    (mailResponse : List Char)
    (hall : ∀ a ∈ rcpt, startsWithPlus a = true) :
    (handle_DATA rcpt (Except.ok 201) mailResponse).response =
      some "250 Message accepted for delivery".data ∧
    (handle_DATA rcpt (Except.ok 201) mailResponse).mailInvoked = false := by
  have hmail : rcpt.filter (fun a => !(startsWithPlus a)) = [] := by
    rw [List.filter_eq_nil_iff]
    intro a ha
    simp [hall a ha]
  simp only [handle_DATA, partitionRcpt_eq, hmail, send_signal]
  split
  · simp
  · simp

/-- C8 witness: envelope `["+15551234567"]`, messaging succeeds. -/
theorem data_all_signal_success_witness :
    (handle_DATA ["+15551234567".data] (Except.ok 201)
        "irrelevant".data).response =
      some "250 Message accepted for delivery".data ∧
    (handle_DATA ["+15551234567".data] (Except.ok 201)
        "irrelevant".data).mailInvoked = false :=
  data_all_signal_success ["+15551234567".data] "irrelevant".data (by decide)

/-- C1 (amended): with at least one messaging recipient, a completed REST
exchange with a status other than 201 makes `handle_DATA` return
`554 Sending signal message has failed` without invoking `send_mail`; a
transport error (exception from the HTTP client) instead propagates out of
`handle_DATA` uncaught — no SMTP response is produced — and `send_mail` is
likewise never invoked. -/
theorem data_messaging_failure_behavior (rcpt : List (List Char))
    (mailResponse : List Char) (status : Nat)
    (hsig : ∃ a ∈ rcpt, startsWithPlus a = true) (hfail : status ≠ 201) :
    handle_DATA rcpt (Except.ok status) mailResponse =
      ⟨some "554 Sending signal message has failed".data, true, false⟩ ∧
    handle_DATA rcpt (Except.error ()) mailResponse =
      ⟨none, true, false⟩ := by
  have hlen : 0 < (rcpt.filter startsWithPlus).length := by
    obtain ⟨a, ha, hpa⟩ := hsig
    exact List.length_pos.mpr (List.ne_nil_of_mem (List.mem_filter.mpr ⟨ha, hpa⟩))
  have hbeq : (status == 201) = false := by simp [hfail]
  constructor
  · simp only [handle_DATA, partitionRcpt_eq, send_signal]
    rw [if_pos hlen]
    simp [hbeq]
  · simp only [handle_DATA, partitionRcpt_eq, send_signal]
    rw [if_pos hlen]

/-- C1 witness: envelope `["+15551234567", "bob@example.com"]` with the
endpoint answering HTTP 500: the transaction fails with `554` and the relay
is never invoked. -/
theorem data_messaging_failure_behavior_witness :
    handle_DATA ["+15551234567".data, "bob@example.com".data] (Except.ok 500)
      "250 OK".data =
      ⟨some "554 Sending signal message has failed".data, true, false⟩ :=
  (data_messaging_failure_behavior
    ["+15551234567".data, "bob@example.com".data] "250 OK".data 500
    ⟨"+15551234567".data, by decide, by decide⟩ (by decide)).1

/-- C1 counterexample: with a messaging recipient present and the REST call
raising a transport error, `handle_DATA` yields no SMTP response at all (the
exception propagates out of the handler), in particular not the `554`
response the claim requires; `send_mail` is still never invoked. -/
theorem data_transport_error_counterexample :
    handle_DATA ["+15551234567".data] (Except.error ()) "250 OK".data =
      ⟨none, true, false⟩ ∧
    (handle_DATA ["+15551234567".data] (Except.error ())
        "250 OK".data).response ≠
      some "554 Sending signal message has failed".data := by
  constructor
  · decide
  · decide

theorem replaceRemove_single (a : Char) (s : List Char) :
    replaceRemove [a] s = s.filter (fun c => !(c == a)) := by
  induction s with
  | nil => simp [replaceRemove]
  | cons c t ih =>
    by_cases hac : a = c
    · subst hac
      simp [replaceRemove, List.isPrefixOf, ih]
    · simp [replaceRemove, List.isPrefixOf, hac, Ne.symm hac, ih]

theorem cleanImg_eq_filter (img : List Char) :
    cleanImg img =
      img.filter (fun c => !(c == '\r') && !(c == '\n')) := by
  simp only [cleanImg, replaceRemove_single, List.filter_filter]

set_option linter.unusedVariables false in
/-- C7: for a non-empty messaging recipient list, the payload's `message`
field is the decoded subject, a line break, then the (possibly
HTML-to-text-converted) body; `number` is the configured sender id with all
backslashes removed; `recipients` is exactly the classified contact-id
list; and `base64_attachments` is present exactly when at least one inline
image was extracted from the body. -/
theorem signal_payload_fields (sender_number subject body : List Char)
    (receivers : List (List Char)) (hne : receivers ≠ []) :
    (send_signal_payload sender_number subject body receivers).message =
      subject ++ ('\r' :: '\n' :: []) ++ extract_msg_body body ∧
    (send_signal_payload sender_number subject body receivers).number =
      sender_number.filter (fun c => !(c == '\\')) ∧
    (send_signal_payload sender_number subject body receivers).recipients =
      receivers ∧
    ((send_signal_payload sender_number subject body
        receivers).base64_attachments.isSome ↔ findImages body ≠ []) := by
  refine ⟨rfl, replaceRemove_single '\\' sender_number, rfl, ?_⟩
  by_cases himg : (findImages body).isEmpty
  · simp [send_signal_payload, himg, List.isEmpty_iff.mp himg]
  · have hne' : findImages body ≠ [] := by
      intro hnil
      rw [hnil] at himg
      exact himg rfl
    simp [send_signal_payload, himg, hne']

/-- C7 witness: concrete payload for sender `+49\\123`, subject `hi`, a
plain body with one inline image, and one recipient. -/
theorem signal_payload_fields_witness :
    (send_signal_payload "+49\\123".data "hi".data
        "data:image/png;base64,aGVsbG8=".data ["+15551234567".data]).number =
      "+49\\123".data.filter (fun c => !(c == '\\')) ∧
    (send_signal_payload "+49\\123".data "hi".data
        "data:image/png;base64,aGVsbG8=".data
        ["+15551234567".data]).recipients = ["+15551234567".data] :=
  ⟨(signal_payload_fields "+49\\123".data "hi".data
      "data:image/png;base64,aGVsbG8=".data ["+15551234567".data]
      (by decide)).2.1,
    (signal_payload_fields "+49\\123".data "hi".data
      "data:image/png;base64,aGVsbG8=".data ["+15551234567".data]
      (by decide)).2.2.1⟩

theorem matchImageAt_marker {cs : List Char} {r : List Char × List Char}
    (h : matchImageAt cs = some r) :
    "data:image/".data.isPrefixOf cs = true := by
  simp only [matchImageAt] at h
  split at h
  · rename_i hp
    exact hp
  · exact absurd h (by simp)

theorem containsSub_cons_false {pat : List Char} {c : Char} {t : List Char}
    (h : containsSub pat (c :: t) = false) :
    pat.isPrefixOf (c :: t) = false ∧ containsSub pat t = false := by
  simp only [containsSub, Bool.or_eq_false_iff] at h
  exact h

theorem findImages_nil_of_no_marker (body : List Char)
    (h : containsSub "data:image/".data body = false) :
    findImages body = [] := by
  induction body using findImages.induct with
  | case1 => simp [findImages]
  | case2 c t g rest hm ih =>
    have hp := matchImageAt_marker hm
    rw [(containsSub_cons_false h).1] at hp
    exact absurd hp (by simp)
  | case3 c t hm ih =>
    rw [findImages]
    split
    · rename_i g rest hsome
      rw [hm] at hsome
      exact absurd hsome (by simp)
    · exact ih (containsSub_cons_false h).2

/-- C5 (amended): image extraction draws only on `data:image` data URIs
found in the scanned body text (the named-PNG regex compiled in the
constructor, line 31-33, is never applied); a body with no `data:image/`
occurrence — in particular one holding a named PNG-typed content part
attached as base64 — contributes no image buffers, and `base64_attachments`
is absent. -/
theorem attachments_only_from_data_uris (sender_number subject body : List Char)
    (receivers : List (List Char))
    (h : containsSub "data:image/".data body = false) :
    (send_signal_payload sender_number subject body
        receivers).base64_attachments = none := by
  have hnil := findImages_nil_of_no_marker body h
  simp [send_signal_payload, hnil]

/-- C5 witness: a body that is exactly a named PNG part with base64 content
has no `data:image/` occurrence, and the payload carries no attachments. -/
theorem attachments_only_from_data_uris_witness :
    (send_signal_payload "+4912".data "subj".data
        "Content-Type: image/png; name=\"img.png\"\n\niVBORw0KGgoAAAANSUhEUg==".data
        ["+15551234567".data]).base64_attachments = none :=
  attachments_only_from_data_uris "+4912".data "subj".data
    "Content-Type: image/png; name=\"img.png\"\n\niVBORw0KGgoAAAANSUhEUg==".data
    ["+15551234567".data] (by decide)

/-- C5 counterexample: the body below is a named PNG-typed content part
attached as base64 (it contains `Content-Type: image/png; name=` followed
by a base64 payload), yet the delivery payload built by `send_signal`
carries no image buffers at all: `base64_attachments` is absent, because
the named-PNG regex compiled at lines 31-33 is never applied anywhere and
the only extraction performed (line 117) scans for `data:image` URIs. -/
theorem named_png_part_extraction_counterexample :
    containsSub "Content-Type: image/png; name=".data
      "Content-Type: image/png; name=\"img.png\"\n\niVBORw0KGgoAAAANSUhEUg==".data
      = true ∧
    (send_signal_payload "+4912".data "subj".data
        "Content-Type: image/png; name=\"img.png\"\n\niVBORw0KGgoAAAANSUhEUg==".data
        ["+15551234567".data]).base64_attachments = none := by
  constructor
  · decide
  · have hnil := findImages_nil_of_no_marker
      "Content-Type: image/png; name=\"img.png\"\n\niVBORw0KGgoAAAANSUhEUg==".data
      (by decide)
    simp [send_signal_payload, hnil]

theorem containsSub_cons (pat : List Char) (c : Char) (t : List Char) :
    containsSub pat (c :: t) =
      (pat.isPrefixOf (c :: t) || containsSub pat t) := rfl

theorem split1Tail_cons (pat : List Char) (c : Char) (t : List Char) :
    split1Tail pat (c :: t) =
      if pat.isPrefixOf (c :: t) then (c :: t).drop pat.length
      else split1Tail pat t := rfl

theorem containsSub_found (pat pre rest : List Char) (hne : pat ≠ []) :
    containsSub pat (pre ++ (pat ++ rest)) = true := by
  induction pre with
  | nil =>
    rw [List.nil_append]
    cases pat with
    | nil => exact absurd rfl hne
    | cons p pt =>
      rw [List.cons_append, containsSub_cons, ← List.cons_append]
      simp
  | cons a pre' ih =>
    rw [List.cons_append, containsSub_cons, ih]
    simp

theorem split1Tail_append (pat pre rest : List Char) (hne : pat ≠ [])
    (hov : noSelfOverlapB pat = true)
    (hpre : containsSub pat pre = false) :
    split1Tail pat (pre ++ (pat ++ rest)) = rest := by
  induction pre with
  | nil =>
    rw [List.nil_append]
    cases pat with
    | nil => exact absurd rfl hne
    | cons p pt =>
      rw [List.cons_append, split1Tail_cons, ← List.cons_append,
        if_pos (by simp)]
      exact List.drop_left (p :: pt) rest
  | cons a pre' ih =>
    obtain ⟨hnp, hpre'⟩ := containsSub_cons_false hpre
    have hno : ¬ pat.isPrefixOf (a :: (pre' ++ (pat ++ rest))) = true := by
      rw [← List.cons_append]
      simp only [ List.isPrefixOf_iff_prefix]
      intro hpf
      by_cases hm : pat.length ≤ (a :: pre').length
      · have htake := List.prefix_iff_eq_take.mp hpf
        rw [List.take_append_eq_append_take,
          Nat.sub_eq_zero_of_le hm, List.take_zero, List.append_nil] at htake
        have hp2 : pat <+: a :: pre' := by
          rw [htake]
          exact List.take_prefix _ _
        have hb : pat.isPrefixOf (a :: pre') = true := by
          simp only [ List.isPrefixOf_iff_prefix]
          exact hp2
        rw [hnp] at hb
        exact absurd hb (by simp)
      · have hm' : (a :: pre').length < pat.length := Nat.lt_of_not_le hm
        obtain ⟨tl, htl⟩ := hpf
        have hL : pat.take (a :: pre').length = a :: pre' := by
          have h1 := congrArg (List.take (a :: pre').length) htl
          rw [List.take_append_eq_append_take,
            Nat.sub_eq_zero_of_le (Nat.le_of_lt hm'), List.take_zero,
            List.append_nil, List.take_append_eq_append_take,
            List.take_length, Nat.sub_self, List.take_zero,
            List.append_nil] at h1
          exact h1
        have hsplit2 : pat.drop (a :: pre').length ++ tl = pat ++ rest := by
          have h2 := htl
          conv at h2 =>
            lhs
            rw [← List.take_append_drop (a :: pre').length pat]
          rw [hL, List.append_assoc] at h2
          exact List.append_cancel_left h2
        have hq : pat.drop (a :: pre').length <+: pat := by
          have hq1 : pat.drop (a :: pre').length <+: pat ++ rest :=
            ⟨tl, hsplit2⟩
          have hq2 := List.prefix_iff_eq_take.mp hq1
          rw [List.take_append_eq_append_take,
            Nat.sub_eq_zero_of_le (by
              rw [List.length_drop]
              omega),
            List.take_zero, List.append_nil] at hq2
          rw [hq2]
          exact List.take_prefix _ _
        have hall := List.all_eq_true.mp hov (a :: pre').length
          (List.mem_range.mpr hm')
        simp only [List.length_cons, Bool.or_eq_true, beq_iff_eq,
          Bool.not_eq_true'] at hall
        rcases hall with hzero | hfalse
        · exact absurd hzero (by omega)
        · have hb : (pat.drop (a :: pre').length).isPrefixOf pat = true := by
            simp only [ List.isPrefixOf_iff_prefix]
            exact hq
          rw [List.length_cons] at hb
          rw [hb] at hfalse
          exact absurd hfalse (by simp)
    rw [List.cons_append, split1Tail_cons, if_neg hno]
    exact ih hpre'

theorem html2text_model_no_lt (s : List Char) : '<' ∉ html2text_model s := by
  induction s using html2text_model.induct with
  | case1 => simp [html2text_model]
  | case2 t ih =>
    rw [html2text_model, if_pos rfl]
    intro hmem
    rw [List.mem_append] at hmem
    rcases hmem with h1 | h2
    · split at h1
      · simp at h1
      · simp at h1
    · exact ih h2
  | case3 c t hc ih =>
    rw [html2text_model, if_neg hc]
    intro hmem
    rcases List.mem_cons.mp hmem with h1 | h2
    · exact hc h1.symm
    · exact ih h2

/-- C6: when the selected body is HTML whose text contains the doctype
marker preceded by preamble noise (a prefix in which the marker does not
occur), the extracted message body is exactly the HTML-to-text conversion
of the marker and everything after it — the preamble is excluded — and the
conversion output contains no markup tag characters. -/
theorem extract_body_strips_preamble (pre rest : List Char)
    (hpre : containsSub doctypeMarker pre = false) :
    extract_msg_body (pre ++ (doctypeMarker ++ rest)) =
      html2text_model (doctypeMarker ++ rest) ∧
    '<' ∉ extract_msg_body (pre ++ (doctypeMarker ++ rest)) := by
  have hmain : extract_msg_body (pre ++ (doctypeMarker ++ rest)) =
      html2text_model (doctypeMarker ++ rest) := by
    unfold extract_msg_body
    rw [if_pos (containsSub_found doctypeMarker pre rest (by decide))]
    rw [split1Tail_append doctypeMarker pre rest (by decide) (by decide) hpre]
  refine ⟨hmain, ?_⟩
  rw [hmain]
  exact html2text_model_no_lt _

/-- C6 witness: a MIME preamble line before the doctype marker is stripped,
and the converted remainder contains no tags. -/
theorem extract_body_strips_preamble_witness :
    extract_msg_body ("This part is a MIME preamble.\r\n".data ++
        (doctypeMarker ++ "PUBLIC><html><p>Hello</p></html>".data)) =
      html2text_model (doctypeMarker ++
        "PUBLIC><html><p>Hello</p></html>".data) ∧
    '<' ∉ extract_msg_body ("This part is a MIME preamble.\r\n".data ++
        (doctypeMarker ++ "PUBLIC><html><p>Hello</p></html>".data)) :=
  extract_body_strips_preamble "This part is a MIME preamble.\r\n".data
    "PUBLIC><html><p>Hello</p></html>".data (by decide)

theorem findImages_nil : findImages [] = [] := by
  rw [findImages]

theorem findImages_match {cs g rest : List Char}
    (h : matchImageAt cs = some (g, rest)) :
    findImages cs = g :: findImages rest := by
  cases cs with
  | nil =>
    rw [show matchImageAt [] = none by decide] at h
    exact absurd h (by simp)
  | cons c t =>
    rw [findImages]
    split
    · rename_i g' rest' hsome
      rw [h] at hsome
      simp only [Option.some.injEq, Prod.mk.injEq] at hsome
      rw [← hsome.1, ← hsome.2]
    · rename_i hnone
      rw [h] at hnone
      exact absurd hnone (by simp)

theorem matchImageAt_cons_ne_d {c : Char} (t : List Char) (h : ¬ c = 'd') :
    matchImageAt (c :: t) = none := by
  have hp : ("data:image/".data.isPrefixOf (c :: t)) = false := by
    rw [show ("data:image/".data : List Char) = 'd' :: "ata:image/".data
      from rfl]
    simp [List.isPrefixOf, Ne.symm h]
  unfold matchImageAt
  rw [if_neg (by simp [hp])]

theorem findImages_cons_none {c : Char} {t : List Char}
    (h : matchImageAt (c :: t) = none) :
    findImages (c :: t) = findImages t := by
  rw [findImages]
  split
  · rename_i g' rest' hsome
    rw [h] at hsome
    exact absurd hsome (by simp)
  · rfl

theorem findImages_skip (s t : List Char) (h : ∀ c ∈ s, ¬ c = 'd') :
    findImages (s ++ t) = findImages t := by
  induction s with
  | nil => rw [List.nil_append]
  | cons a s' ih =>
    rw [List.cons_append,
      findImages_cons_none (matchImageAt_cons_ne_d _ (h a (by simp)))]
    exact ih fun c hc => h c (by simp [hc])

theorem matchImageAt_uri (sub payload : List Char) (q : Char)
    (rest : List Char)
    (hsub_ne : sub ≠ []) (hsub : ∀ c ∈ sub, isAlphaAscii c = true)
    (hpay_ne : payload ≠ []) (hpay : ∀ c ∈ payload, isImgPayloadChar c = true)
    (hq : isImgPayloadChar q = false) :
    matchImageAt ("data:image/".data ++ (sub ++ (";base64,".data ++
        (payload ++ q :: rest)))) = some (payload, q :: rest) := by
  simp only [matchImageAt]
  rw [if_pos (by simp)]
  rw [List.drop_left]
  rw [List.cons_append]
  rw [takeWhile_append_stop ';' _ hsub (by decide)]
  rw [if_neg (by simp [List.isEmpty_iff, hsub_ne])]
  rw [List.drop_left]
  rw [← List.cons_append]
  rw [if_pos (by simp)]
  rw [List.drop_left]
  rw [takeWhile_append_stop q rest hpay hq]
  rw [if_neg (by simp [List.isEmpty_iff, hpay_ne])]
  rw [List.drop_left]

/-- C4: for any HTML body of the two-data-URI scenario shape, extraction
yields exactly the two base64 payloads in order of appearance; the payload
carries their line-break-stripped forms as `base64_attachments`; and the
byte buffers these denote are exactly the result of stripping line-break
characters from each payload and then base64-decoding. -/
theorem two_inline_images_extracted (sub1 p1 sub2 p2 : List Char)
    (sn subj : List Char) (rs : List (List Char))
    (hs1 : sub1 ≠ []) (ha1 : ∀ c ∈ sub1, isAlphaAscii c = true)
    (hs2 : sub2 ≠ []) (ha2 : ∀ c ∈ sub2, isAlphaAscii c = true)
    (hp1 : p1 ≠ []) (hc1 : ∀ c ∈ p1, isImgPayloadChar c = true)
    (hp2 : p2 ≠ []) (hc2 : ∀ c ∈ p2, isImgPayloadChar c = true) :
    findImages (demoBody sub1 p1 sub2 p2) = [p1, p2] ∧
    (send_signal_payload sn subj (demoBody sub1 p1 sub2 p2)
        rs).base64_attachments = some [cleanImg p1, cleanImg p2] ∧
    [cleanImg p1, cleanImg p2].map base64Decode =
      [base64Decode (p1.filter (fun c => !(c == '\r') && !(c == '\n'))),
        base64Decode (p2.filter (fun c => !(c == '\r') && !(c == '\n')))] := by
  have hfind : findImages (demoBody sub1 p1 sub2 p2) = [p1, p2] := by
    unfold demoBody
    rw [findImages_skip _ _ (by decide)]
    rw [findImages_match (matchImageAt_uri sub1 p1 '"' _ hs1 ha1 hp1 hc1
      (by decide))]
    rw [findImages_cons_none (matchImageAt_cons_ne_d _ (by decide))]
    rw [findImages_skip _ _ (by decide)]
    rw [findImages_match (matchImageAt_uri sub2 p2 '"' _ hs2 ha2 hp2 hc2
      (by decide))]
    rw [show ('"' :: "></html>".data : List Char) =
      "\"></html>".data ++ ([] : List Char) by decide]
    rw [findImages_skip _ _ (by decide), findImages_nil]
  refine ⟨hfind, ?_, ?_⟩
  · simp only [send_signal_payload, hfind]
    rfl
  · rw [cleanImg_eq_filter, cleanImg_eq_filter]
    rfl

/-- C4 witness: concrete scenario with PNG and JPEG data URIs, the first
payload containing an embedded newline; the decoded first buffer is the
bytes of `hello`. -/
theorem two_inline_images_extracted_witness :
    findImages (demoBody "png".data "aGVs\nbG8=".data "jpeg".data
        "d29ybGQ=".data) = ["aGVs\nbG8=".data, "d29ybGQ=".data] ∧
    base64Decode (cleanImg "aGVs\nbG8=".data) =
      some [104, 101, 108, 108, 111] :=
  ⟨(two_inline_images_extracted "png".data "aGVs\nbG8=".data "jpeg".data
      "d29ybGQ=".data "+49".data "subj".data ["+1".data]
      (by decide) (by decide) (by decide) (by decide)
      (by decide) (by decide) (by decide) (by decide)).1,
    by
      rw [cleanImg_eq_filter]
      decide⟩

end Email2Signal
